import Mathlib

/-!
Verification development for the happy-helper authenticator core.

Strings are modelled as `List Char`.  JavaScript numbers that flow through
`parseInt` are modelled as `Option Int`, with `none` standing for `NaN`;
JSON numbers (which can never be `NaN`) are modelled as `Int`.  Fractional
JS numbers are outside the model.  Platform builtins used by the source
(`new URL`, `decodeURIComponent`, `URLSearchParams`, `String.prototype.trim`,
`toUpperCase`) are modelled on their ASCII fragment: percent-escapes that
decode to bytes ≥ 0x80 (multi-byte UTF-8) are treated as decode failures,
and case mapping is ASCII-only.  All inputs exercised by the theorems below
stay inside that fragment.
-/

namespace HappyHelper

/-- Code points matched by the JavaScript regular-expression class `\s`
(whitespace and line terminators). -/
def jsSpaceCodes : List Nat :=
  [0x9, 0xA, 0xB, 0xC, 0xD, 0x20, 0xA0, 0x1680,
   0x2000, 0x2001, 0x2002, 0x2003, 0x2004, 0x2005, 0x2006, 0x2007,
   0x2008, 0x2009, 0x200A, 0x2028, 0x2029, 0x202F, 0x205F, 0x3000, 0xFEFF]

/-- JS `\s` membership test for a single character. -/
def jsIsSpace (c : Char) : Bool :=
  decide (c.toNat ∈ jsSpaceCodes)

/-- ASCII fragment of JS `String.prototype.toUpperCase`, characterwise. -/
def jsToUpper (c : Char) : Char :=
  if 0x61 ≤ c.toNat ∧ c.toNat ≤ 0x7A then Char.ofNat (c.toNat - 0x20) else c

/-- ASCII fragment of JS `String.prototype.toLowerCase`, characterwise. -/
def jsToLower (c : Char) : Char :=
  if 0x41 ≤ c.toNat ∧ c.toNat ≤ 0x5A then Char.ofNat (c.toNat + 0x20) else c

/-- `s.replace(/\s/g, '').toUpperCase()` — the normalization applied to
secrets in `validateSecret` (otpauth-parser.ts:77), `handleManualSubmit`
(Index.tsx:84) and `useTOTP` (useTOTP.ts:17). -/
def normalizeSecret (s : List Char) : List Char :=
  (s.filter (fun c => !jsIsSpace c)).map jsToUpper

/-- The Base32 alphabet `A-Z2-7` (otpauth-parser.ts:78). -/
def base32Alphabet : List Char :=
  ['A', 'B', 'C', 'D', 'E', 'F', 'G', 'H', 'I', 'J', 'K', 'L', 'M',
   'N', 'O', 'P', 'Q', 'R', 'S', 'T', 'U', 'V', 'W', 'X', 'Y', 'Z',
   '2', '3', '4', '5', '6', '7']

/-- Membership in the Base32 alphabet. -/
def isB32 (c : Char) : Bool :=
  base32Alphabet.contains c

/-- The regex test `/^[A-Z2-7]+=*$/.test s`: a nonempty run of alphabet
characters followed only by `=` signs. -/
def matchB32Padded (s : List Char) : Bool :=
  let core := s.takeWhile isB32
  decide (core ≠ []) && (s.drop core.length).all (fun c => c = '=')

/-- `validateSecret` (otpauth-parser.ts:75-79): normalize, then require the
padded-Base32 shape and a normalized length of at least 16. -/
def validateSecret (s : List Char) : Bool :=
  let cleanSecret := normalizeSecret s
  matchB32Padded cleanSecret && decide (16 ≤ cleanSecret.length)

/-- The countdown computation of `useTOTP` (useTOTP.ts:30):
`period - (now % period)` on JS numbers, here on `Int` (for the
nonnegative integral inputs in scope, JS `%` agrees with `Int.emod`). -/
def remaining (period now : Int) : Int :=
  period - now % period

/-- Hexadecimal digit value, as used by percent-decoding. -/
def hexVal (c : Char) : Option Nat :=
  if 0x30 ≤ c.toNat ∧ c.toNat ≤ 0x39 then some (c.toNat - 0x30)
  else if 0x41 ≤ c.toNat ∧ c.toNat ≤ 0x46 then some (c.toNat - 0x41 + 10)
  else if 0x61 ≤ c.toNat ∧ c.toNat ≤ 0x66 then some (c.toNat - 0x61 + 10)
  else none

/-- Modelled from the platform: `decodeURIComponent`, restricted to ASCII.
A malformed escape (`%` not followed by two hex digits) throws in JS and is
`none` here; an escape for a byte ≥ 0x80 starts a multi-byte UTF-8 sequence
in JS and is conservatively `none` here (see the file header). -/
def decodeURIComponentM : List Char → Option (List Char)
  | [] => some []
  | '%' :: h1 :: h2 :: rest =>
    match hexVal h1, hexVal h2 with
    | some a, some b =>
      let byte := a * 16 + b
      if byte < 0x80 then
        (decodeURIComponentM rest).map (fun t => Char.ofNat byte :: t)
      else none
    | _, _ => none
  | '%' :: _ :: [] => none
  | '%' :: [] => none
  | c :: rest => (decodeURIComponentM rest).map (fun t => c :: t)

/-- Modelled from the platform: `application/x-www-form-urlencoded`
value decoding as done by `URLSearchParams` — `+` becomes a space, valid
ASCII percent-escapes are decoded, malformed or non-ASCII escapes are left
verbatim (never an error). -/
def formDecode : List Char → List Char
  | [] => []
  | '+' :: rest => ' ' :: formDecode rest
  | '%' :: h1 :: h2 :: rest =>
    match hexVal h1, hexVal h2 with
    | some a, some b =>
      let byte := a * 16 + b
      if byte < 0x80 then Char.ofNat byte :: formDecode rest
      else '%' :: formDecode (h1 :: h2 :: rest)
    | _, _ => '%' :: formDecode (h1 :: h2 :: rest)
  | c :: rest => c :: formDecode rest

/-- The components of a parsed URL that `parseOTPAuthURI` reads:
`scheme` (lowercased, without the trailing colon of `url.protocol`),
`host`, `pathname` and the query string (without its leading `?`). -/
structure URLParts where
  scheme : List Char
  host : List Char
  pathname : List Char
  query : List Char
  deriving Repr, DecidableEq

/-- A valid URL scheme: an ASCII letter followed by letters, digits,
`+`, `-` or `.`. -/
def validScheme (s : List Char) : Bool :=
  match s with
  | [] => false
  | c :: rest =>
    c.isAlpha && rest.all (fun d => d.isAlpha || d.isDigit || d = '+' || d = '-' || d = '.')

/-- Modelled from the platform: the WHATWG `new URL` constructor, on the
shapes `parseOTPAuthURI` exercises (an absolute non-special-scheme URL).
Tabs and newlines are removed, leading/trailing C0-control-or-space
trimmed; the scheme is lowercased; an opaque host (non-special scheme) is
taken verbatim up to `/`, `?` or `#`; a URL without a scheme throws in JS
and is `none` here. -/
def parseURL (s : List Char) : Option URLParts :=
  let s := (((s.dropWhile (fun c => c.toNat ≤ 0x20)).reverse.dropWhile
      (fun c => c.toNat ≤ 0x20)).reverse).filter
      (fun c => !(c.toNat = 0x9 ∨ c.toNat = 0xA ∨ c.toNat = 0xD))
  let schemeRaw := s.takeWhile (fun c => c ≠ ':')
  if schemeRaw.length = s.length then none
  else if !validScheme schemeRaw then none
  else
    let scheme := schemeRaw.map jsToLower
    let rest := s.drop (schemeRaw.length + 1)
    match rest with
    | '/' :: '/' :: af =>
      let host := af.takeWhile (fun c => c ≠ '/' ∧ c ≠ '?' ∧ c ≠ '#')
      let rem := af.drop host.length
      let pathname := rem.takeWhile (fun c => c ≠ '?' ∧ c ≠ '#')
      let afterPath := rem.drop pathname.length
      let query :=
        match afterPath with
        | '?' :: q => q.takeWhile (fun c => c ≠ '#')
        | _ => []
      some ⟨scheme, host, pathname, query⟩
    | _ =>
      let pathname := rest.takeWhile (fun c => c ≠ '?' ∧ c ≠ '#')
      let afterPath := rest.drop pathname.length
      let query :=
        match afterPath with
        | '?' :: q => q.takeWhile (fun c => c ≠ '#')
        | _ => []
      some ⟨scheme, [], pathname, query⟩

/-- Modelled from the platform: `URLSearchParams` construction — split the
query on `&`, drop empty pieces, split each piece at its first `=`, and
form-decode keys and values. -/
def parseQuery (q : List Char) : List (List Char × List Char) :=
  (q.splitOn '&').filterMap (fun piece =>
    if piece = [] then none
    else
      let k := piece.takeWhile (fun c => c ≠ '=')
      let v := piece.drop (k.length + 1)
      some (formDecode k, formDecode v))

/-- `URLSearchParams.get`: the value of the first pair with the given key,
or `none` (`null`) when no pair has it.  `params.has k` is `true` exactly
when this is `some` (both use the same first-match key search). -/
def getParam (ps : List (List Char × List Char)) (k : List Char) : Option (List Char) :=
  match ps.find? (fun p => p.1 = k) with
  | some p => some p.2
  | none => none

/-- JS `parseInt(s, 10)`: skip leading whitespace, read an optional sign
and a nonempty run of decimal digits; `none` models `NaN`.  (JS also stops
at the first non-digit, keeping the prefix — modelled faithfully.) -/
def jsParseInt (s : List Char) : Option Int :=
  let t := s.dropWhile jsIsSpace
  let signAndRest : Int × List Char :=
    match t with
    | '-' :: r => (-1, r)
    | '+' :: r => (1, r)
    | _ => (1, t)
  let ds := signAndRest.2.takeWhile Char.isDigit
  if ds = [] then none
  else some (signAndRest.1 * (ds.foldl (fun acc c => acc * 10 + (c.toNat - 0x30)) 0 : Nat))

/-- The literal scheme `otpauth` (otpauth-parser.ts:26). -/
def otpauthS : List Char := "otpauth".data

/-- The literal host `totp` (otpauth-parser.ts:30). -/
def totpS : List Char := "totp".data

/-- The literal `SHA1`. -/
def sha1S : List Char := "SHA1".data

/-- The literal `SHA256`. -/
def sha256S : List Char := "SHA256".data

/-- The literal `SHA512`. -/
def sha512S : List Char := "SHA512".data

/-- The literal `Unknown` (otpauth-parser.ts:62). -/
def unknownS : List Char := "Unknown".data

/-- The query key `secret`. -/
def secretKey : List Char := "secret".data

/-- The query key `issuer`. -/
def issuerKey : List Char := "issuer".data

/-- The query key `algorithm`. -/
def algorithmKey : List Char := "algorithm".data

/-- The query key `digits`. -/
def digitsKey : List Char := "digits".data

/-- The query key `period`. -/
def periodKey : List Char := "period".data

/-- The parser's output record (types/account.ts:12-19).  The TS type
annotates `algorithm` with a union type, but the source obtains it by an
unchecked `as`-cast (otpauth-parser.ts:57), so any string can inhabit it;
`digits`/`period` are JS numbers that may be `NaN` (`none`). -/
structure ParsedOTPAuth where
  issuer : List Char
  label : List Char
  secret : List Char
  algorithm : List Char
  digits : Option Int
  period : Option Int
  deriving Repr, DecidableEq

/-- Issuer derived from the decoded label path (otpauth-parser.ts:39-43):
the part before the first colon, or empty when there is no colon. -/
def issuerOfPath (path : List Char) : List Char :=
  if path.contains ':' then path.takeWhile (fun c => c ≠ ':') else []

/-- Label derived from the decoded label path (otpauth-parser.ts:39-43):
everything after the first colon, or the whole path when there is none. -/
def labelOfPath (path : List Char) : List Char :=
  if path.contains ':' then
    path.drop ((path.takeWhile (fun c => c ≠ ':')).length + 1)
  else path

/-- The issuer after the query-parameter override and the `'Unknown'`
default (otpauth-parser.ts:53-55 and 62): a present issuer parameter
replaces the path-derived issuer unless its value is the empty string
(`params.get('issuer') || issuer`), and an issuer that is still empty
becomes `'Unknown'` (`issuer || 'Unknown'`). -/
def finalIssuer (ps : List (List Char × List Char)) (issuer0 : List Char) : List Char :=
  let i1 :=
    match getParam ps issuerKey with
    | some v => if v = [] then issuer0 else v
    | none => issuer0
  if i1 = [] then unknownS else i1

/-- `params.get('algorithm')?.toUpperCase() || 'SHA1'`
(otpauth-parser.ts:57) — note: no membership check in {SHA1,SHA256,SHA512}
is performed, the result is cast. -/
def algoOf (ps : List (List Char × List Char)) : List Char :=
  match getParam ps algorithmKey with
  | some v => if v = [] then sha1S else v.map jsToUpper
  | none => sha1S

/-- `parseInt(params.get('digits') || '6', 10)` (otpauth-parser.ts:58) —
no range check is performed on the result. -/
def digitsOf (ps : List (List Char × List Char)) : Option Int :=
  jsParseInt
    (match getParam ps digitsKey with
     | some v => if v = [] then ('6' :: []) else v
     | none => ('6' :: []))

/-- `parseInt(params.get('period') || '30', 10)` (otpauth-parser.ts:59) —
no range check is performed on the result. -/
def periodOf (ps : List (List Char × List Char)) : Option Int :=
  jsParseInt
    (match getParam ps periodKey with
     | some v => if v = [] then ('3' :: '0' :: []) else v
     | none => ('3' :: '0' :: []))

/-- The record returned at otpauth-parser.ts:61-68, once the secret is
known to be present and nonempty. -/
def mkCred (path : List Char) (ps : List (List Char × List Char))
    (sv : List Char) : ParsedOTPAuth :=
  { issuer := finalIssuer ps (issuerOfPath path)
    label := labelOfPath path
    secret := sv
    algorithm := algoOf ps
    digits := digitsOf ps
    period := periodOf ps }

/-- Secret lookup and the `if (!secret) throw` guard
(otpauth-parser.ts:46-50): a missing parameter (`null`) and an empty value
are both falsy and abort the parse. -/
def credOf (u : URLParts) (path : List Char) : Option ParsedOTPAuth :=
  let ps := parseQuery u.query
  match getParam ps secretKey with
  | none => none
  | some sv => if sv = [] then none else some (mkCred path ps sv)

/-- The body of `parseOTPAuthURI` after URL construction
(otpauth-parser.ts:26-68): protocol check, host check, path
percent-decoding (whose failure, like every other failure, is caught by
the surrounding `try`), then credential construction. -/
def parseWithURL (u : URLParts) : Option ParsedOTPAuth :=
  if u.scheme = otpauthS then
    if u.host = totpS then
      match decodeURIComponentM (u.pathname.drop 1) with
      | none => none
      | some path => credOf u path
    else none
  else none

/-- `parseOTPAuthURI` (otpauth-parser.ts:22-73).  The surrounding
`try`/`catch` that turns every thrown error into `null` is modelled by
totality: this function always returns, with `none` for every failure. -/
def parseOTPAuthURI (uri : List Char) : Option ParsedOTPAuth :=
  (parseURL uri).bind parseWithURL

/-- A stored account (types/account.ts v2:1-10).  `digits`/`period` are JS
numbers (an account built from a parsed URI can carry `NaN`, modelled as
`none`); `backupCodes` is optional. -/
structure Account where
  id : List Char
  issuer : List Char
  label : List Char
  secret : List Char
  algorithm : List Char
  digits : Option Int
  period : Option Int
  createdAt : Int
  backupCodes : Option (List (List Char))
  deriving Repr, DecidableEq

/-- The fields handed to `addAccount` (`Omit<Account, 'id' | 'createdAt'>`,
useAccounts.ts:67). -/
structure NewAccount where
  issuer : List Char
  label : List Char
  secret : List Char
  algorithm : List Char
  digits : Option Int
  period : Option Int
  deriving Repr, DecidableEq

/-- `handleQRScan` (Index.tsx:48-65): parse the scanned URI and, on
success, hand the parsed fields — the secret verbatim — to `addAccount`. -/
def handleQRScan (uri : List Char) : Option NewAccount :=
  (parseOTPAuthURI uri).map (fun p =>
    { issuer := p.issuer, label := p.label, secret := p.secret,
      algorithm := p.algorithm, digits := p.digits, period := p.period })

/-- JS `String.prototype.trim` (model: the same whitespace class as
`\s`). -/
def jsTrim (s : List Char) : List Char :=
  ((s.dropWhile jsIsSpace).reverse.dropWhile jsIsSpace).reverse

/-- The `manualEntrySchema` checks (Index.tsx:25-29): each field is
trimmed, required nonempty, and length-capped (50/100; the secret has no
cap here). -/
def manualEntryOk (issuer label secret : List Char) : Bool :=
  let ti := jsTrim issuer
  let tl := jsTrim label
  let ts := jsTrim secret
  decide (ti ≠ []) && decide (ti.length ≤ 50) &&
  decide (tl ≠ []) && decide (tl.length ≤ 100) &&
  decide (ts ≠ [])

/-- `handleManualSubmit` (Index.tsx:67-103): schema-validate, normalize
the raw secret, `validateSecret` it, and on success hand the trimmed
issuer/label, the normalized secret and the fixed SHA1/6/30 parameters to
`addAccount`. -/
def handleManualSubmit (issuer label secret : List Char) : Option NewAccount :=
  if manualEntryOk issuer label secret then
    let cleanSecret := normalizeSecret secret
    if validateSecret cleanSecret then
      some { issuer := jsTrim issuer, label := jsTrim label,
             secret := cleanSecret,
             algorithm := sha1S,
             digits := some 6, period := some 30 }
    else none
  else none

/-- A secret is in canonical encoded form when normalization (whitespace
strip + upper-case) leaves it unchanged. -/
def isCanonicalSecret (s : List Char) : Bool :=
  normalizeSecret s = s

/-- An account record as it appears inside a backup-bundle JSON file
(SettingsMenu.tsx:26-36).  JSON numbers are never `NaN`, so `digits`,
`period` and `createdAt` are plain integers here (fractional JSON numbers
are outside the model). -/
structure RawBundleAccount where
  id : List Char
  issuer : List Char
  label : List Char
  secret : List Char
  algorithm : List Char
  digits : Int
  period : Int
  createdAt : Int
  backupCodes : Option (List (List Char))
  deriving Repr, DecidableEq

/-- A backup bundle (SettingsMenu.tsx:38-42). -/
structure Backup where
  version : Int
  exportedAt : Int
  accounts : List RawBundleAccount
  deriving Repr, DecidableEq

/-- The `accountSchema` zod checks (SettingsMenu.tsx:26-36): string length
ceilings, `algorithm` enum membership, `digits` in [1,10], `period` in
[1,300], each backup code at most 100 characters. -/
def accountValid (a : RawBundleAccount) : Bool :=
  decide (a.issuer.length ≤ 100) &&
  decide (a.label.length ≤ 200) &&
  decide (a.secret.length ≤ 500) &&
  (decide (a.algorithm = sha1S) ||
   decide (a.algorithm = sha256S) ||
   decide (a.algorithm = sha512S)) &&
  decide (1 ≤ a.digits) && decide (a.digits ≤ 10) &&
  decide (1 ≤ a.period) && decide (a.period ≤ 300) &&
  (match a.backupCodes with
   | some codes => codes.all (fun c => decide (c.length ≤ 100))
   | none => true)

/-- The `backupSchema` zod checks (SettingsMenu.tsx:38-42): `version`
must be the literal 1 and every account must satisfy `accountSchema`. -/
def backupValid (b : Backup) : Bool :=
  decide (b.version = 1) && b.accounts.all accountValid

/-- The per-account mapping of `handleImport` (SettingsMenu.tsx:98-108):
issuer/label/secret/algorithm/digits/period/backupCodes are carried over
verbatim, while `id` is freshly generated (`crypto.randomUUID()`) and
`createdAt` is the current time (`Date.now()`). -/
def mkImported (freshId : List Char) (now : Int) (a : RawBundleAccount) : Account :=
  { id := freshId, issuer := a.issuer, label := a.label, secret := a.secret,
    algorithm := a.algorithm, digits := some a.digits, period := some a.period,
    createdAt := now, backupCodes := a.backupCodes }

/-- The mapped import list; `fresh i` models the value returned by the
`i`-th call of `crypto.randomUUID()` during the map. -/
def importMap (fresh : Nat → List Char) (now : Int) :
    Nat → List RawBundleAccount → List Account
  | _, [] => []
  | i, a :: rest => mkImported (fresh i) now a :: importMap fresh now (i + 1) rest

/-- `handleImport` (SettingsMenu.tsx:84-120) composed with
`importAccounts` (useAccounts.ts:93-95): when the whole bundle passes
`backupSchema.safeParse`, the mapped accounts are appended to the existing
list; on any schema violation nothing is imported and the list is
unchanged. -/
def handleImport (b : Backup) (existing : List Account)
    (fresh : Nat → List Char) (now : Int) : List Account :=
  if backupValid b then existing ++ importMap fresh now 0 b.accounts
  else existing

/-- `Partial<Account>` (useAccounts.ts:81): each field optionally
present. -/
structure AccountPatch where
  id : Option (List Char) := none
  issuer : Option (List Char) := none
  label : Option (List Char) := none
  secret : Option (List Char) := none
  algorithm : Option (List Char) := none
  digits : Option (Option Int) := none
  period : Option (Option Int) := none
  createdAt : Option Int := none
  backupCodes : Option (Option (List (List Char))) := none

/-- The JS object spread `{ ...acc, ...updates }`: fields present in the
patch override the account's fields. -/
def applyPatch (acc : Account) (p : AccountPatch) : Account :=
  { id := p.id.getD acc.id
    issuer := p.issuer.getD acc.issuer
    label := p.label.getD acc.label
    secret := p.secret.getD acc.secret
    algorithm := p.algorithm.getD acc.algorithm
    digits := p.digits.getD acc.digits
    period := p.period.getD acc.period
    createdAt := p.createdAt.getD acc.createdAt
    backupCodes := p.backupCodes.getD acc.backupCodes }

/-- `updateAccount` (useAccounts.ts:81-85): map over the list, merging the
patch into the account whose `id` matches. -/
def updateAccount (accounts : List Account) (id : List Char)
    (p : AccountPatch) : List Account :=
  accounts.map (fun acc => if acc.id = id then applyPatch acc p else acc)

/-- `updateBackupCodes` (useAccounts.ts:87-91): map over the list,
replacing the matching account's backup-code list wholesale. -/
def updateBackupCodes (accounts : List Account) (id : List Char)
    (codes : List (List Char)) : List Account :=
  accounts.map (fun acc =>
    if acc.id = id then { acc with backupCodes := some codes } else acc)

/-- Modelled from the otpauth library (`Secret.fromBase32`): trailing `=`
padding is stripped, the rest is upper-cased, and decoding throws exactly
when a character outside the Base32 alphabet remains. -/
def base32Decodes (s : List Char) : Bool :=
  ((s.reverse.dropWhile (fun c => c = '=')).reverse.map jsToUpper).all isB32

/-- `generateCode` in `useTOTP` (useTOTP.ts:9-24): the secret is
normalized and handed to `Secret.fromBase32`; any thrown error — in
particular a Base32 decode failure — is caught and replaced by the fixed
placeholder `'------'`.  The library's successful code computation
(HMAC-based, external to this repository) is abstracted as the parameter
`engine`. -/
def generateCode (engine : Account → List Char) (a : Account) : List Char :=
  if base32Decodes (normalizeSecret a.secret) then engine a
  else ('-' :: '-' :: '-' :: '-' :: '-' :: '-' :: [])

/-- The spec's wording of the `validateSecret` acceptance condition
(claim-side, for comparison with the code-side `validateSecret`): after
stripping all whitespace and upper-casing, the string is a nonempty run of
`[A-Z2-7]` characters followed by optional trailing `=` padding, and the
normalized string has length at least 16. -/
def B32ClaimPred (s : List Char) : Prop :=
  (∃ m p, normalizeSecret s = m ++ p ∧ m ≠ [] ∧
    (∀ c ∈ m, isB32 c = true) ∧ ∀ c ∈ p, c = '=') ∧
  16 ≤ (normalizeSecret s).length

/-! ## Concrete inputs used by witnesses and counterexamples -/

/-- A concrete stored account. -/
def wAcc1 : Account :=
  { id := "id-1".data, issuer := "Acme".data, label := "bob".data,
    secret := "ABCDEFGHIJKLMNOP".data, algorithm := sha1S,
    digits := some 6, period := some 30, createdAt := 0, backupCodes := none }

/-- A second concrete stored account. -/
def wAcc2 : Account :=
  { id := "id-2".data, issuer := "Globex".data, label := "eve".data,
    secret := "QRSTUVWXYZ234567".data, algorithm := sha256S,
    digits := some 8, period := some 60, createdAt := 1, backupCodes := none }

/-- A concrete update payload touching only the issuer. -/
def wPatch : AccountPatch :=
  { issuer := some ("Initech".data) }

/-- A concrete backup-code list. -/
def wCodes : List (List Char) :=
  ["1111-2222".data, "3333-4444".data]

/-- A bundle account with `digits = 11`, outside the schema range. -/
def wBadAcc : RawBundleAccount :=
  { id := "foreign-id".data, issuer := "Acme".data, label := "bob".data,
    secret := "ABCDEFGHIJKLMNOP".data, algorithm := sha1S,
    digits := 11, period := 30, createdAt := 0, backupCodes := none }

/-- A version-1 bundle containing only `wBadAcc`. -/
def wBadBundle : Backup :=
  { version := 1, exportedAt := 5, accounts := [wBadAcc] }

/-- An account whose secret contains `0` and `1`, so Base32 decoding
fails. -/
def wBadSecretAcc : Account :=
  { id := "id-3".data, issuer := "Acme".data, label := "bob".data,
    secret := "01".data, algorithm := sha1S,
    digits := some 6, period := some 30, createdAt := 0, backupCodes := none }

/-- A valid bundle account whose foreign id collides with `wAcc1`. -/
def wGoodAcc : RawBundleAccount :=
  { id := "id-1".data, issuer := "Initech".data, label := "carol".data,
    secret := "AAAABBBBCCCCDDDD".data, algorithm := sha512S,
    digits := 8, period := 60, createdAt := 3,
    backupCodes := some ["9999-0000".data] }

/-- A valid version-1 bundle containing only `wGoodAcc`. -/
def wGoodBundle : Backup :=
  { version := 1, exportedAt := 5, accounts := [wGoodAcc] }

/-- A concrete fresh-id generator avoiding every stored id. -/
def wFresh : Nat → List Char := fun _ => "uuid-new".data

/-- The URI of the C1 counterexample: a syntactically fine TOTP URI whose
`digits` parameter is 11, outside `[1,10]`. -/
def c1uri : List Char :=
  "otpauth://totp/Acme:bob?secret=ABC&digits=11".data

/-- What `parseOTPAuthURI` returns on `c1uri`. -/
def c1res : ParsedOTPAuth :=
  { issuer := "Acme".data, label := "bob".data, secret := "ABC".data,
    algorithm := sha1S, digits := some 11, period := some 30 }

/-- A well-formed URI exercising explicit algorithm/digits/period
parameters. -/
def c1wuri : List Char :=
  "otpauth://totp/Acme:bob?secret=AB&algorithm=sha256&digits=7&period=45".data

/-- The URL parts of `c1wuri`. -/
def c1wurl : URLParts :=
  { scheme := otpauthS, host := totpS, pathname := "/Acme:bob".data,
    query := "secret=AB&algorithm=sha256&digits=7&period=45".data }

/-- What `parseOTPAuthURI` returns on `c1wuri`. -/
def c1wres : ParsedOTPAuth :=
  { issuer := "Acme".data, label := "bob".data, secret := "AB".data,
    algorithm := sha256S, digits := some 7, period := some 45 }

/-- The amended issuer policy (claim-side, for comparison with the
code-side `finalIssuer`): a present NON-empty issuer query parameter
overrides the path-derived issuer; a present-but-empty or absent one
leaves the path-derived issuer in place; if the issuer is then still
empty, it becomes the literal `Unknown`. -/
def claimIssuer (q : Option (List Char)) (pathIssuer : List Char) :
    List Char :=
  match q with
  | some v =>
      if v = [] then (if pathIssuer = [] then unknownS else pathIssuer)
      else v
  | none => if pathIssuer = [] then unknownS else pathIssuer

/-- The URI of the C8 counterexample: the issuer query parameter is
present but empty. -/
def c8uri : List Char :=
  "otpauth://totp/Acme:bob?secret=ABC&issuer=".data

/-- What `parseOTPAuthURI` returns on `c8uri`: the path-derived issuer
survives the present-but-empty override. -/
def c8res : ParsedOTPAuth :=
  { issuer := "Acme".data, label := "bob".data, secret := "ABC".data,
    algorithm := sha1S, digits := some 6, period := some 30 }

/-- A URI with a nonempty issuer parameter overriding the path issuer. -/
def c8wuri : List Char :=
  "otpauth://totp/Acme:bob?secret=ABC&issuer=Big".data

/-- The URL parts of `c8wuri`. -/
def c8wurl : URLParts :=
  { scheme := otpauthS, host := totpS, pathname := "/Acme:bob".data,
    query := "secret=ABC&issuer=Big".data }

/-- What `parseOTPAuthURI` returns on `c8wuri`. -/
def c8wres : ParsedOTPAuth :=
  { issuer := "Big".data, label := "bob".data, secret := "ABC".data,
    algorithm := sha1S, digits := some 6, period := some 30 }

/-- The URI of the C7 counterexample: a scanned QR code whose secret is
lower-case. -/
def c7uri : List Char :=
  "otpauth://totp/a?secret=abcdefghijklmnop".data

/-- The account fields `handleQRScan` hands to `addAccount` on `c7uri`:
the secret is stored verbatim, still lower-case. -/
def c7res : NewAccount :=
  { issuer := unknownS, label := "a".data,
    secret := "abcdefghijklmnop".data, algorithm := sha1S,
    digits := some 6, period := some 30 }

/-- The account fields produced by a concrete manual entry with a spaced
lower-case secret. -/
def wManualResult : NewAccount :=
  { issuer := "Acme".data, label := "bob".data,
    secret := "ABCDEFGHIJKLMNOP".data, algorithm := sha1S,
    digits := some 6, period := some 30 }

/-! ## Theorems -/

/-- A list is its `takeWhile` run followed by the corresponding drop. -/
theorem takeWhile_append_drop {α : Type} (q : α → Bool) :
    ∀ t : List α, t.takeWhile q ++ t.drop (t.takeWhile q).length = t
  | [] => rfl
  | c :: rest => by
      by_cases hq : q c
      · simp only [List.takeWhile_cons, hq, if_true, List.length_cons,
          List.drop_succ_cons, List.cons_append, List.cons.injEq, true_and]
        exact takeWhile_append_drop q rest
      · simp [List.takeWhile_cons, hq]

/-- `takeWhile` passes over a block that satisfies the predicate. -/
theorem takeWhile_append_all {α : Type} {q : α → Bool} :
    ∀ (m p : List α), (∀ c ∈ m, q c = true) →
      (m ++ p).takeWhile q = m ++ p.takeWhile q
  | [], _, _ => rfl
  | c :: rest, p, h => by
      simp only [List.cons_append, List.takeWhile_cons, h c (by simp),
        if_true, List.cons.injEq, true_and]
      exact takeWhile_append_all rest p (fun d hd => h d (by simp [hd]))

/-- A pure-padding tail contributes nothing to the Base32 run. -/
theorem takeWhile_isB32_pad :
    ∀ p : List Char, (∀ c ∈ p, c = '=') → p.takeWhile isB32 = []
  | [], _ => rfl
  | c :: _, h => by
      have hc : c = '=' := h c (by simp)
      subst hc
      simp [List.takeWhile_cons]
      decide

/-- Characterization of the regex test `/^[A-Z2-7]+=*$/`: it accepts
exactly the strings that split into a nonempty Base32 block followed by a
(possibly empty) run of `=` signs. -/
theorem matchB32Padded_iff (t : List Char) :
    matchB32Padded t = true ↔
      ∃ m p, t = m ++ p ∧ m ≠ [] ∧
        (∀ c ∈ m, isB32 c = true) ∧ ∀ c ∈ p, c = '=' := by
  constructor
  · intro h
    rw [matchB32Padded, Bool.and_eq_true, decide_eq_true_iff] at h
    refine ⟨t.takeWhile isB32, t.drop (t.takeWhile isB32).length,
      (takeWhile_append_drop isB32 t).symm, h.1,
      fun c hc => List.mem_takeWhile_imp hc, ?_⟩
    intro c hc
    have := List.all_eq_true.mp h.2 c hc
    simpa using this
  · rintro ⟨m, p, rfl, hm, hall, hpad⟩
    have hcore : (m ++ p).takeWhile isB32 = m := by
      rw [takeWhile_append_all m p hall, takeWhile_isB32_pad p hpad,
        List.append_nil]
    rw [matchB32Padded]
    simp only [hcore, List.drop_left, Bool.and_eq_true, decide_eq_true_iff,
      List.all_eq_true]
    exact ⟨hm, fun c hc => by simp [hpad c hc]⟩

/-- Whitespace stripping and upper-casing leave the four excluded decimal
digits in place. -/
theorem bad_digit_survives (c : Char) (h : c ∈ ['0', '1', '8', '9']) :
    jsIsSpace c = false ∧ jsToUpper c = c := by
  fin_cases h <;> exact ⟨by decide, by decide⟩

/-- Base32-alphabet characters are untouched by normalization. -/
theorem b32_char_normal (c : Char) (h : isB32 c = true) :
    jsIsSpace c = false ∧ jsToUpper c = c := by
  have hm : c ∈ base32Alphabet := List.elem_iff.mp h
  fin_cases hm <;> exact ⟨by decide, by decide⟩

/-- Claim C2: `validateSecret` accepts exactly the strings described by
the spec (nonempty `[A-Z2-7]` run, optional `=` padding, normalized
length ≥ 16); in particular it rejects any string containing one of the
digits 0, 1, 8, 9, rejects any string normalizing to fewer than 16
characters, and accepts every string of 16 or more characters drawn from
the Base32 alphabet. -/
theorem validateSecret_spec (s : List Char) :
    (validateSecret s = true ↔ B32ClaimPred s) ∧
    ((∃ c ∈ s, c ∈ ['0', '1', '8', '9']) → validateSecret s = false) ∧
    ((normalizeSecret s).length < 16 → validateSecret s = false) ∧
    ((∀ c ∈ s, isB32 c = true) → 16 ≤ s.length → validateSecret s = true) := by
  have hiff : validateSecret s = true ↔ B32ClaimPred s := by
    rw [validateSecret, B32ClaimPred, Bool.and_eq_true, decide_eq_true_iff,
      matchB32Padded_iff]
  refine ⟨hiff, ?_, ?_, ?_⟩
  · rintro ⟨c, hcs, hc⟩
    cases hv : validateSecret s with
    | false => rfl
    | true =>
        exfalso
        obtain ⟨⟨m, p, hsplit, _, hallm, hallp⟩, _⟩ := hiff.mp hv
        obtain ⟨hns, hnu⟩ := bad_digit_survives c hc
        have hmem : c ∈ normalizeSecret s := by
          rw [normalizeSecret]
          exact List.mem_map.mpr
            ⟨c, List.mem_filter.mpr ⟨hcs, by simp [hns]⟩, hnu⟩
        rw [hsplit] at hmem
        rcases List.mem_append.mp hmem with hm | hp
        · exact absurd (hallm c hm) (by fin_cases hc <;> decide)
        · exact absurd (hallp c hp) (by fin_cases hc <;> decide)
  · intro hlen
    rw [validateSecret]
    have : decide (16 ≤ (normalizeSecret s).length) = false := by
      simp; omega
    simp [this]
  · intro hall hlen
    have hnorm : normalizeSecret s = s := by
      rw [normalizeSecret]
      have hfil : s.filter (fun c => !jsIsSpace c) = s := by
        apply List.filter_eq_self.mpr
        intro c hc
        simp [(b32_char_normal c (hall c hc)).1]
      rw [hfil]
      have hmap : ∀ c ∈ s, jsToUpper c = c := fun c hc =>
        (b32_char_normal c (hall c hc)).2
      calc s.map jsToUpper = s.map id := List.map_congr_left hmap
        _ = s := List.map_id s
    rw [hiff, B32ClaimPred, hnorm]
    refine ⟨⟨s, [], by simp, ?_, hall, by simp⟩, hlen⟩
    intro hs
    rw [hs] at hlen
    simp at hlen

/-- Witness for C2: a digit-0 string and a short string are rejected, a
16-character Base32 string is accepted. -/
theorem validateSecret_spec_witness :
    validateSecret ("ABCDEFGHIJKLMN0P".data) = false ∧
    validateSecret ("ABC".data) = false ∧
    validateSecret ("ABCDEFGHIJKLMNOP".data) = true :=
  ⟨(validateSecret_spec _).2.1 ⟨'0', by decide, by decide⟩,
   (validateSecret_spec _).2.2.1 (by decide),
   (validateSecret_spec _).2.2.2 (by decide) (by decide)⟩

/-- Inversion of a successful parse: the URL has the `otpauth` scheme and
`totp` host, the path decodes, a nonempty `secret` parameter exists, and
the credential is built by `mkCred`. -/
theorem parse_inv (uri : List Char) (c : ParsedOTPAuth)
    (h : parseOTPAuthURI uri = some c) :
    ∃ u path sv, parseURL uri = some u ∧ u.scheme = otpauthS ∧
      u.host = totpS ∧
      decodeURIComponentM (u.pathname.drop 1) = some path ∧
      getParam (parseQuery u.query) secretKey = some sv ∧ sv ≠ [] ∧
      c = mkCred path (parseQuery u.query) sv := by
  rw [parseOTPAuthURI] at h
  cases hu : parseURL uri with
  | none => rw [hu] at h; simp at h
  | some u =>
      rw [hu, Option.some_bind] at h
      rw [parseWithURL] at h
      split_ifs at h with h1 h2
      cases hd : decodeURIComponentM (u.pathname.drop 1) with
      | none => rw [hd] at h; simp at h
      | some path =>
          rw [hd] at h
          simp only [credOf] at h
          cases hs : getParam (parseQuery u.query) secretKey with
          | none => rw [hs] at h; simp at h
          | some sv =>
              rw [hs] at h
              dsimp only at h
              split_ifs at h with h3
              exact ⟨u, path, sv, rfl, h1, h2, hd, hs, h3,
                (Option.some_inj.mp h).symm⟩

/-- Claim C3: `parseOTPAuthURI` returns `null` — and, being total, never
throws to its caller — for every malformed URI, every URI whose scheme is
not `otpauth`, every URI whose host position is not the literal `totp`,
and every URI whose query lacks a `secret` parameter; and on every
accepted URI whose algorithm, digits or period parameters are absent the
credential carries the defaults SHA1, 6 and 30. -/
theorem parse_reject_defaults :
    (∀ uri : List Char, parseURL uri = none → parseOTPAuthURI uri = none) ∧
    (∀ (uri : List Char) (u : URLParts), parseURL uri = some u →
      u.scheme ≠ otpauthS → parseOTPAuthURI uri = none) ∧
    (∀ (uri : List Char) (u : URLParts), parseURL uri = some u →
      u.host ≠ totpS → parseOTPAuthURI uri = none) ∧
    (∀ (uri : List Char) (u : URLParts), parseURL uri = some u →
      getParam (parseQuery u.query) secretKey = none →
      parseOTPAuthURI uri = none) ∧
    (∀ (uri : List Char) (u : URLParts) (c : ParsedOTPAuth),
      parseURL uri = some u → parseOTPAuthURI uri = some c →
      (getParam (parseQuery u.query) algorithmKey = none →
        c.algorithm = sha1S) ∧
      (getParam (parseQuery u.query) digitsKey = none → c.digits = some 6) ∧
      (getParam (parseQuery u.query) periodKey = none →
        c.period = some 30)) := by
  refine ⟨fun uri h => by rw [parseOTPAuthURI, h]; rfl, ?_, ?_, ?_, ?_⟩
  · intro uri u hu hs
    cases hp : parseOTPAuthURI uri with
    | none => rfl
    | some c =>
        obtain ⟨u', _, _, hu', h1, _⟩ := parse_inv uri c hp
        rw [hu] at hu'
        rw [Option.some_inj.mp hu'] at hs
        exact absurd h1 hs
  · intro uri u hu hs
    cases hp : parseOTPAuthURI uri with
    | none => rfl
    | some c =>
        obtain ⟨u', _, _, hu', _, h2, _⟩ := parse_inv uri c hp
        rw [hu] at hu'
        rw [Option.some_inj.mp hu'] at hs
        exact absurd h2 hs
  · intro uri u hu hs
    cases hp : parseOTPAuthURI uri with
    | none => rfl
    | some c =>
        obtain ⟨u', _, sv, hu', _, _, _, hsec, _⟩ := parse_inv uri c hp
        rw [hu] at hu'
        rw [← Option.some_inj.mp hu'] at hsec
        rw [hsec] at hs
        simp at hs
  · intro uri u c hu hp
    obtain ⟨u', path, sv, hu', _, _, _, _, _, hc⟩ := parse_inv uri c hp
    rw [hu] at hu'
    rw [← Option.some_inj.mp hu'] at hc
    subst hc
    refine ⟨fun h => ?_, fun h => ?_, fun h => ?_⟩
    · simp [mkCred, algoOf, h]
    · simp [mkCred, digitsOf, h]
      decide
    · simp [mkCred, periodOf, h]
      decide

/-- Witness for C3: wrong scheme, `hotp` type and missing secret are all
rejected; an accepted URI without algorithm/digits/period parameters
carries SHA1, 6, 30. -/
theorem parse_reject_defaults_witness :
    parseOTPAuthURI ("http://totp/a?secret=AB".data) = none ∧
    parseOTPAuthURI ("otpauth://hotp/a?secret=AB".data) = none ∧
    parseOTPAuthURI ("otpauth://totp/a".data) = none ∧
    ∃ c, parseOTPAuthURI ("otpauth://totp/Acme:bob?secret=AB".data) = some c ∧
      c.algorithm = sha1S ∧ c.digits = some 6 ∧ c.period = some 30 := by
  have h := parse_reject_defaults
  have hc : parseOTPAuthURI ("otpauth://totp/Acme:bob?secret=AB".data) =
      some ⟨"Acme".data, "bob".data, "AB".data, sha1S, some 6, some 30⟩ := by
    rfl
  have hd := h.2.2.2.2 ("otpauth://totp/Acme:bob?secret=AB".data)
    ⟨otpauthS, totpS, "/Acme:bob".data, "secret=AB".data⟩
    ⟨"Acme".data, "bob".data, "AB".data, sha1S, some 6, some 30⟩ (by rfl) hc
  exact ⟨h.2.1 _ ⟨"http".data, totpS, "/a".data, "secret=AB".data⟩
      (by rfl) (by decide),
    h.2.2.1 _ ⟨otpauthS, "hotp".data, "/a".data, "secret=AB".data⟩
      (by rfl) (by decide),
    h.2.2.2.1 _ ⟨otpauthS, totpS, "/a".data, []⟩ (by rfl) (by rfl),
    ⟨_, hc, hd.1 (by rfl), hd.2.1 (by rfl), hd.2.2 (by rfl)⟩⟩

/-- Case analysis for `algoOf`: either the default SHA1 (absent or empty
parameter) or the upper-cased parameter value, whatever it is. -/
theorem algoOf_cases (ps : List (List Char × List Char)) :
    algoOf ps = sha1S ∨
    ∃ v, getParam ps algorithmKey = some v ∧ v ≠ [] ∧
      algoOf ps = v.map jsToUpper := by
  rw [algoOf]
  cases hg : getParam ps algorithmKey with
  | none => exact Or.inl rfl
  | some v =>
      dsimp only
      split_ifs with he
      · exact Or.inl rfl
      · exact Or.inr ⟨v, rfl, he, rfl⟩

/-- Case analysis for `digitsOf`: either the default 6 (absent or empty
parameter) or the `parseInt` of the parameter value, whatever it is. -/
theorem digitsOf_cases (ps : List (List Char × List Char)) :
    digitsOf ps = some 6 ∨
    ∃ v, getParam ps digitsKey = some v ∧ v ≠ [] ∧
      digitsOf ps = jsParseInt v := by
  rw [digitsOf]
  cases hg : getParam ps digitsKey with
  | none => exact Or.inl (by decide)
  | some v =>
      dsimp only
      split_ifs with he
      · exact Or.inl (by decide)
      · exact Or.inr ⟨v, rfl, he, rfl⟩

/-- Case analysis for `periodOf`: either the default 30 (absent or empty
parameter) or the `parseInt` of the parameter value, whatever it is. -/
theorem periodOf_cases (ps : List (List Char × List Char)) :
    periodOf ps = some 30 ∨
    ∃ v, getParam ps periodKey = some v ∧ v ≠ [] ∧
      periodOf ps = jsParseInt v := by
  rw [periodOf]
  cases hg : getParam ps periodKey with
  | none => exact Or.inl (by decide)
  | some v =>
      dsimp only
      split_ifs with he
      · exact Or.inl (by decide)
      · exact Or.inr ⟨v, rfl, he, rfl⟩

/-- Counterexample to C1 as stated: on
`otpauth://totp/Acme:bob?secret=ABC&digits=11` the parser returns a
non-null credential whose digits field is 11, outside `[1,10]` — the
out-of-range query value is accepted unchecked. -/
theorem parse_range_counterexample :
    ¬ (∀ c : ParsedOTPAuth, parseOTPAuthURI c1uri = some c →
        (c.algorithm = sha1S ∨ c.algorithm = sha256S ∨
          c.algorithm = sha512S) ∧
        (∃ d, c.digits = some d ∧ 1 ≤ d ∧ d ≤ 10) ∧
        (∃ p, c.period = some p ∧ 1 ≤ p ∧ p ≤ 300)) := by
  intro hcl
  obtain ⟨-, ⟨d, hd, h1, h2⟩, -⟩ := hcl c1res (by rfl)
  have hd11 : (11 : Int) = d := by
    have : c1res.digits = some 11 := rfl
    rw [this] at hd
    exact Option.some_inj.mp hd
  omega

/-- Claim C1 (amended): `parseOTPAuthURI` applies no enum or range
validation — algorithm is the upper-cased query value and digits/period
the base-10 `parseInt` of theirs, passed through unchecked.  The claimed
ranges therefore hold exactly when each parameter is absent or empty (the
defaults SHA1/6/30 apply) or itself carries an in-range value. -/
theorem parse_range_amended (uri : List Char) (u : URLParts)
    (c : ParsedOTPAuth) (hu : parseURL uri = some u)
    (hp : parseOTPAuthURI uri = some c) :
    ((∀ v : List Char,
        getParam (parseQuery u.query) algorithmKey = some v → v ≠ [] →
        (v.map jsToUpper = sha1S ∨ v.map jsToUpper = sha256S ∨
          v.map jsToUpper = sha512S)) →
      (c.algorithm = sha1S ∨ c.algorithm = sha256S ∨
        c.algorithm = sha512S)) ∧
    ((∀ v : List Char,
        getParam (parseQuery u.query) digitsKey = some v → v ≠ [] →
        ∃ d, jsParseInt v = some d ∧ 1 ≤ d ∧ d ≤ 10) →
      ∃ d, c.digits = some d ∧ 1 ≤ d ∧ d ≤ 10) ∧
    ((∀ v : List Char,
        getParam (parseQuery u.query) periodKey = some v → v ≠ [] →
        ∃ p, jsParseInt v = some p ∧ 1 ≤ p ∧ p ≤ 300) →
      ∃ p, c.period = some p ∧ 1 ≤ p ∧ p ≤ 300) := by
  obtain ⟨u', path, sv, hu', _, _, _, _, _, hc⟩ := parse_inv uri c hp
  rw [hu] at hu'
  rw [← Option.some_inj.mp hu'] at hc
  subst hc
  refine ⟨fun hv => ?_, fun hv => ?_, fun hv => ?_⟩
  · show algoOf (parseQuery u.query) = sha1S ∨
      algoOf (parseQuery u.query) = sha256S ∨
      algoOf (parseQuery u.query) = sha512S
    rcases algoOf_cases (parseQuery u.query) with h | ⟨v, hg, hne, h⟩
    · exact Or.inl h
    · rw [h]; exact hv v hg hne
  · show ∃ d, digitsOf (parseQuery u.query) = some d ∧ 1 ≤ d ∧ d ≤ 10
    rcases digitsOf_cases (parseQuery u.query) with h | ⟨v, hg, hne, h⟩
    · exact ⟨6, h, by omega, by omega⟩
    · obtain ⟨d, hd, h1, h2⟩ := hv v hg hne
      exact ⟨d, by rw [h, hd], h1, h2⟩
  · show ∃ p, periodOf (parseQuery u.query) = some p ∧ 1 ≤ p ∧ p ≤ 300
    rcases periodOf_cases (parseQuery u.query) with h | ⟨v, hg, hne, h⟩
    · exact ⟨30, h, by omega, by omega⟩
    · obtain ⟨p, hd, h1, h2⟩ := hv v hg hne
      exact ⟨p, by rw [h, hd], h1, h2⟩

/-- Witness for the amended C1 on a URI whose parameters are present and
in range. -/
theorem parse_range_amended_witness :
    (c1wres.algorithm = sha1S ∨ c1wres.algorithm = sha256S ∨
      c1wres.algorithm = sha512S) ∧
    (∃ d, c1wres.digits = some d ∧ 1 ≤ d ∧ d ≤ 10) ∧
    (∃ p, c1wres.period = some p ∧ 1 ≤ p ∧ p ≤ 300) := by
  have h := parse_range_amended c1wuri c1wurl c1wres (by rfl) (by rfl)
  refine ⟨h.1 ?_, h.2.1 ?_, h.2.2 ?_⟩
  · intro v hv _
    have h0 : (some ("sha256".data) : Option (List Char)) = some v := by
      rw [← hv]; rfl
    rw [← Option.some_inj.mp h0]
    exact Or.inr (Or.inl rfl)
  · intro v hv _
    have h0 : (some ("7".data) : Option (List Char)) = some v := by
      rw [← hv]; rfl
    rw [← Option.some_inj.mp h0]
    exact ⟨7, by decide, by decide, by decide⟩
  · intro v hv _
    have h0 : (some ("45".data) : Option (List Char)) = some v := by
      rw [← hv]; rfl
    rw [← Option.some_inj.mp h0]
    exact ⟨45, by decide, by decide, by decide⟩

/-- Claim C4: for every period > 0 and every nonnegative `now`, the
remaining-validity computation equals `period - (now mod period)` and
always lies in `[1, period]`. -/
theorem remaining_range (period now : Int) (hp : 0 < period) (_hn : 0 ≤ now) :
    remaining period now = period - now % period ∧
    1 ≤ remaining period now ∧ remaining period now ≤ period := by
  have h1 : now % period < period := Int.emod_lt_of_pos now hp
  have h2 : 0 ≤ now % period := Int.emod_nonneg now (by omega)
  refine ⟨rfl, ?_, ?_⟩ <;> (rw [remaining]; omega)

/-- Witness for C4 at `period = 30`, `now = 100`. -/
theorem remaining_range_witness :
    remaining 30 100 = 30 - 100 % 30 ∧ 1 ≤ remaining 30 100 ∧
    remaining 30 100 ≤ 30 :=
  remaining_range 30 100 (by decide) (by decide)

/-- Claim C10: `updateAccount` and `updateBackupCodes` preserve the length
and order of the account list; every account whose id differs from the
given id is completely unchanged, and only the matching account, if any,
is modified (patch-merged, resp. given the new backup-code list). -/
theorem update_frame (accounts : List Account) (id : List Char)
    (p : AccountPatch) (codes : List (List Char)) :
    (updateAccount accounts id p).length = accounts.length ∧
    (updateBackupCodes accounts id codes).length = accounts.length ∧
    (∀ (i : Nat) (acc : Account), accounts[i]? = some acc → acc.id ≠ id →
      (updateAccount accounts id p)[i]? = some acc ∧
      (updateBackupCodes accounts id codes)[i]? = some acc) ∧
    (∀ (i : Nat) (acc : Account), accounts[i]? = some acc → acc.id = id →
      (updateAccount accounts id p)[i]? = some (applyPatch acc p) ∧
      (updateBackupCodes accounts id codes)[i]? =
        some { acc with backupCodes := some codes }) := by
  refine ⟨by simp [updateAccount], by simp [updateBackupCodes], ?_, ?_⟩ <;>
    · intro i acc h hid
      constructor <;>
        simp [updateAccount, updateBackupCodes, List.getElem?_map, h, hid]

/-- Witness for C10 on a concrete two-account list. -/
theorem update_frame_witness :
    (updateAccount [wAcc1, wAcc2] wAcc2.id wPatch)[0]? = some wAcc1 ∧
    (updateBackupCodes [wAcc1, wAcc2] wAcc2.id wCodes)[0]? = some wAcc1 ∧
    (updateAccount [wAcc1, wAcc2] wAcc2.id wPatch)[1]? =
      some (applyPatch wAcc2 wPatch) ∧
    (updateBackupCodes [wAcc1, wAcc2] wAcc2.id wCodes)[1]? =
      some { wAcc2 with backupCodes := some wCodes } := by
  have h := update_frame [wAcc1, wAcc2] wAcc2.id wPatch wCodes
  have h1 := h.2.2.1 0 wAcc1 (by rfl) (by decide)
  have h2 := h.2.2.2 1 wAcc2 (by rfl) (by rfl)
  exact ⟨h1.1, h1.2, h2.1, h2.2⟩

/-- Claim C5: any schema violation in a backup bundle — a wrong version
literal or any account failing the per-account checks (such as `digits`
out of `[1,10]`) — rejects the whole import: nothing is appended and the
existing account list is returned unchanged. -/
theorem import_atomic (b : Backup) (existing : List Account)
    (fresh : Nat → List Char) (now : Int)
    (h : b.version ≠ 1 ∨ ∃ a ∈ b.accounts, accountValid a = false) :
    handleImport b existing fresh now = existing := by
  have hb : backupValid b = false := by
    rw [backupValid]
    rcases h with h | ⟨a, ha, hv⟩
    · simp [h]
    · have : b.accounts.all accountValid = false :=
        List.all_eq_false.mpr ⟨a, ha, by simp [hv]⟩
      simp [this]
  simp [handleImport, hb]

/-- Witness for C5: a bundle whose single account has `digits = 11` is
rejected and the store is unchanged. -/
theorem import_atomic_witness :
    handleImport wBadBundle [wAcc1] (fun _ => "fresh-id".data) 77 = [wAcc1] :=
  import_atomic wBadBundle [wAcc1] (fun _ => "fresh-id".data) 77
    (Or.inr ⟨wBadAcc, by simp [wBadBundle], by decide⟩)

/-- Indexing into the mapped import list: entry `j` is the `j`-th bundle
account with identity `fresh (i + j)` and timestamp `now`. -/
theorem importMap_getElem? (fresh : Nat → List Char) (now : Int) :
    ∀ (l : List RawBundleAccount) (i j : Nat),
      (importMap fresh now i l)[j]? =
        (l[j]?).map (fun a => mkImported (fresh (i + j)) now a)
  | [], _, _ => by simp [importMap]
  | _ :: _, _, 0 => by simp [importMap]
  | _ :: rest, i, j + 1 => by
      have hidx : i + (j + 1) = (i + 1) + j := by omega
      simp only [importMap, List.getElem?_cons_succ, hidx]
      exact importMap_getElem? fresh now rest (i + 1) j

/-- The mapped import list has the bundle's length. -/
theorem importMap_length (fresh : Nat → List Char) (now : Int) :
    ∀ (l : List RawBundleAccount) (i : Nat),
      (importMap fresh now i l).length = l.length
  | [], _ => rfl
  | _ :: rest, i => by
      simp only [importMap, List.length_cons]
      rw [importMap_length fresh now rest (i + 1)]

/-- Claim C6: a successfully imported bundle appends one account per
bundle account; each gets the freshly generated id of the corresponding
`crypto.randomUUID()` call and the current timestamp, never a foreign id
from the bundle, while issuer, label, secret, algorithm, digits, period
and backupCodes are carried over verbatim; consequently, when the fresh
ids avoid the existing store ids, no id collision is introduced. -/
theorem import_fresh_identity (b : Backup) (existing : List Account)
    (fresh : Nat → List Char) (now : Int) (h : backupValid b = true) :
    handleImport b existing fresh now =
      existing ++ importMap fresh now 0 b.accounts ∧
    (importMap fresh now 0 b.accounts).length = b.accounts.length ∧
    (∀ (i : Nat) (a : RawBundleAccount), b.accounts[i]? = some a →
      (importMap fresh now 0 b.accounts)[i]? = some
        { id := fresh i, issuer := a.issuer, label := a.label,
          secret := a.secret, algorithm := a.algorithm,
          digits := some a.digits, period := some a.period,
          createdAt := now, backupCodes := a.backupCodes }) ∧
    ((∀ (i : Nat), fresh i ∉ existing.map Account.id) →
      ∀ acc ∈ importMap fresh now 0 b.accounts,
        acc.id ∉ existing.map Account.id) := by
  refine ⟨by simp [handleImport, h], importMap_length fresh now b.accounts 0,
          ?_, ?_⟩
  · intro i a ha
    rw [importMap_getElem? fresh now b.accounts 0 i, ha]
    simp [mkImported]
  · intro hf acc hacc
    obtain ⟨j, hj⟩ := List.mem_iff_getElem?.mp hacc
    rw [importMap_getElem? fresh now b.accounts 0 j] at hj
    cases haj : b.accounts[j]? with
    | none => rw [haj] at hj; simp at hj
    | some a =>
        rw [haj] at hj
        simp only [Option.map_some', Option.some_inj] at hj
        have : acc.id = fresh j := by rw [← hj]; simp [mkImported]
        rw [this]
        exact hf j

/-- Witness for C6 on a concrete one-account bundle carrying a colliding
foreign id. -/
theorem import_fresh_identity_witness :
    handleImport wGoodBundle [wAcc1] wFresh 99 =
      [wAcc1] ++ importMap wFresh 99 0 wGoodBundle.accounts ∧
    (importMap wFresh 99 0 wGoodBundle.accounts)[0]? = some
      { id := wFresh 0, issuer := wGoodAcc.issuer, label := wGoodAcc.label,
        secret := wGoodAcc.secret, algorithm := wGoodAcc.algorithm,
        digits := some wGoodAcc.digits, period := some wGoodAcc.period,
        createdAt := 99, backupCodes := wGoodAcc.backupCodes } ∧
    ∀ acc ∈ importMap wFresh 99 0 wGoodBundle.accounts,
      acc.id ∉ [wAcc1].map Account.id := by
  have h := import_fresh_identity wGoodBundle [wAcc1] wFresh 99 (by decide)
  exact ⟨h.1, h.2.2.1 0 wGoodAcc (by rfl),
    h.2.2.2 (by
      intro i
      show "uuid-new".data ∉ [wAcc1].map Account.id
      decide)⟩

/-- Claim C9: when an account's secret fails Base32 decoding, code
generation (whatever the underlying library engine computes on success)
returns the fixed placeholder `'------'`, a string with no decimal digits
— never a plausible-looking numeric code, and never an uncaught throw
(the model is a total function). -/
theorem generateCode_bad_secret (engine : Account → List Char) (a : Account)
    (h : base32Decodes (normalizeSecret a.secret) = false) :
    generateCode engine a = "------".data ∧
    ∀ c ∈ generateCode engine a, c.isDigit = false := by
  have hg : generateCode engine a = "------".data := by
    simp [generateCode, h]
  refine ⟨hg, ?_⟩
  rw [hg]
  decide

/-- Witness for C9: a secret containing `0` and `1` fails decoding and
yields the placeholder, for an arbitrary concrete engine. -/
theorem generateCode_bad_secret_witness :
    generateCode (fun _ => []) wBadSecretAcc = "------".data ∧
    ∀ c ∈ generateCode (fun _ => []) wBadSecretAcc, c.isDigit = false :=
  generateCode_bad_secret (fun _ => []) wBadSecretAcc (by decide)

/-- `Char.ofNat` below the surrogate range round-trips through
`toNat`. -/
theorem toNat_ofNat_lt (n : Nat) (h : n < 0xD800) :
    (Char.ofNat n).toNat = n := by
  have hv : n.isValidChar := Or.inl h
  rw [Char.ofNat, dif_pos hv]
  rfl

/-- No character with code in `[48, 122]` — digits and ASCII letters —
is JS whitespace. -/
theorem jsIsSpace_eq_false_of_range (c : Char) (h1 : 48 ≤ c.toNat)
    (h2 : c.toNat ≤ 122) : jsIsSpace c = false := by
  rw [jsIsSpace, decide_eq_false_iff_not]
  simp only [jsSpaceCodes, List.mem_cons, List.not_mem_nil, or_false]
  omega

/-- Upper-casing does not create or destroy whitespace. -/
theorem jsIsSpace_toUpper (c : Char) :
    jsIsSpace (jsToUpper c) = jsIsSpace c := by
  rw [jsToUpper]
  split_ifs with h
  · have ht : (Char.ofNat (c.toNat - 0x20)).toNat = c.toNat - 0x20 :=
      toNat_ofNat_lt _ (by omega)
    have hl : jsIsSpace (Char.ofNat (c.toNat - 0x20)) = false := by
      apply jsIsSpace_eq_false_of_range <;> rw [ht] <;> omega
    have hr : jsIsSpace c = false :=
      jsIsSpace_eq_false_of_range c (by omega) (by omega)
    rw [hl, hr]
  · rfl

/-- Upper-casing is idempotent. -/
theorem jsToUpper_toUpper (c : Char) :
    jsToUpper (jsToUpper c) = jsToUpper c := by
  by_cases h : 0x61 ≤ c.toNat ∧ c.toNat ≤ 0x7A
  · have h1 : jsToUpper c = Char.ofNat (c.toNat - 0x20) := by
      rw [jsToUpper, if_pos h]
    have ht : (Char.ofNat (c.toNat - 0x20)).toNat = c.toNat - 0x20 :=
      toNat_ofNat_lt _ (by omega)
    rw [h1, jsToUpper, ht, if_neg (by omega)]
  · have h1 : jsToUpper c = c := by rw [jsToUpper, if_neg h]
    rw [h1, h1]

/-- Normalization (whitespace strip + upper-case) is idempotent: its
output is already in canonical form. -/
theorem normalizeSecret_idem (s : List Char) :
    normalizeSecret (normalizeSecret s) = normalizeSecret s := by
  rw [normalizeSecret, normalizeSecret, List.filter_map]
  have hq : ((fun c => !jsIsSpace c) ∘ jsToUpper) = fun c => !jsIsSpace c :=
    funext fun c => by simp [Function.comp, jsIsSpace_toUpper]
  rw [hq, List.filter_filter]
  simp only [Bool.and_self]
  rw [List.map_map]
  have hu : (jsToUpper ∘ jsToUpper) = jsToUpper :=
    funext fun c => jsToUpper_toUpper c
  rw [hu]

/-- Counterexample to C7 as stated: scanning
`otpauth://totp/a?secret=abcdefghijklmnop` stores the lower-case secret
verbatim — the stored secret is not in canonical (uppercase,
whitespace-stripped) form. -/
theorem secret_canonical_counterexample :
    handleQRScan c7uri = some c7res ∧
    isCanonicalSecret c7res.secret = false := by
  exact ⟨by rfl, by decide⟩

/-- Claim C7 (amended): accounts created by manual entry store the secret
in canonical form (the normalization of the raw input, itself a fixed
point of normalization); accounts created by QR-scan store the parsed
secret verbatim, with no normalization applied at storage time
(normalization happens later, at code-generation time). -/
theorem secret_canonical_amended :
    (∀ (issuer label secret : List Char) (n : NewAccount),
      handleManualSubmit issuer label secret = some n →
      n.secret = normalizeSecret secret ∧
      isCanonicalSecret n.secret = true) ∧
    (∀ (uri : List Char) (n : NewAccount), handleQRScan uri = some n →
      ∃ p, parseOTPAuthURI uri = some p ∧ n.secret = p.secret) := by
  constructor
  · intro issuer label secret n h
    rw [handleManualSubmit] at h
    dsimp only at h
    split_ifs at h with h1 h2
    have hn := Option.some_inj.mp h
    have hsec : n.secret = normalizeSecret secret := by rw [← hn]
    refine ⟨hsec, ?_⟩
    rw [hsec, isCanonicalSecret]
    exact decide_eq_true (normalizeSecret_idem secret)
  · intro uri n h
    rw [handleQRScan] at h
    cases hp : parseOTPAuthURI uri with
    | none => rw [hp] at h; simp at h
    | some p =>
        rw [hp] at h
        simp only [Option.map_some', Option.some_inj] at h
        exact ⟨p, rfl, by rw [← h]⟩

/-- Witness for the amended C7: a manual entry with a spaced lower-case
secret stores its canonical form; a QR scan stores the parsed secret. -/
theorem secret_canonical_amended_witness :
    (wManualResult.secret =
      normalizeSecret ("abcd efgh ijkl mnop".data) ∧
     isCanonicalSecret wManualResult.secret = true) ∧
    ∃ p, parseOTPAuthURI c7uri = some p ∧ c7res.secret = p.secret := by
  constructor
  · exact (secret_canonical_amended).1 ("Acme".data) ("bob".data)
      ("abcd efgh ijkl mnop".data) wManualResult (by rfl)
  · exact (secret_canonical_amended).2 c7uri c7res (by rfl)

/-- The code-side issuer computation agrees with the amended
claim-side policy `claimIssuer`. -/
theorem finalIssuer_eq_claim (ps : List (List Char × List Char))
    (issuer0 : List Char) :
    finalIssuer ps issuer0 = claimIssuer (getParam ps issuerKey) issuer0 := by
  cases hg : getParam ps issuerKey with
  | none => rw [finalIssuer, hg]; rfl
  | some v =>
      rw [finalIssuer, hg]
      dsimp only [claimIssuer]
      by_cases hv : v = []
      · simp [hv]
      · simp [hv]

/-- Counterexample to C8 as stated: on
`otpauth://totp/Acme:bob?secret=ABC&issuer=` the issuer parameter is
present (with empty value), so per the claim it overrides the path-derived
issuer and, being empty, should yield `Unknown`; the code instead keeps
the path-derived issuer `Acme`. -/
theorem issuer_override_counterexample :
    ¬ (∀ (c : ParsedOTPAuth) (v : List Char),
        parseOTPAuthURI c8uri = some c →
        getParam (parseQuery ("secret=ABC&issuer=".data)) issuerKey =
          some v →
        c.issuer = (if v = [] then unknownS else v)) := by
  intro hcl
  have h := hcl c8res [] (by rfl) (by rfl)
  rw [if_pos rfl] at h
  have h2 : c8res.issuer = "Acme".data := rfl
  rw [h2] at h
  exact absurd h (by decide)

/-- Claim C8 (amended): a present non-empty issuer query parameter
overrides the path-derived issuer; a present-but-empty one is ignored
(`params.get('issuer') || issuer` keeps the path-derived value); if the
issuer is still empty after both, it defaults to `Unknown`. -/
theorem issuer_override_amended (uri : List Char) (u : URLParts)
    (c : ParsedOTPAuth) (hu : parseURL uri = some u)
    (hp : parseOTPAuthURI uri = some c) :
    ∃ path, decodeURIComponentM (u.pathname.drop 1) = some path ∧
      c.issuer = claimIssuer (getParam (parseQuery u.query) issuerKey)
        (issuerOfPath path) := by
  obtain ⟨u', path, sv, hu', _, _, hd, _, _, hc⟩ := parse_inv uri c hp
  rw [hu] at hu'
  have huu : u = u' := Option.some_inj.mp hu'
  rw [← huu] at hd hc
  subst hc
  exact ⟨path, hd, finalIssuer_eq_claim (parseQuery u.query)
    (issuerOfPath path)⟩

/-- Witness for the amended C8: a nonempty issuer parameter overrides the
path-derived issuer. -/
theorem issuer_override_amended_witness :
    ∃ path, decodeURIComponentM (c8wurl.pathname.drop 1) = some path ∧
      c8wres.issuer = claimIssuer
        (getParam (parseQuery c8wurl.query) issuerKey)
        (issuerOfPath path) :=
  issuer_override_amended c8wuri c8wurl c8wres (by rfl) (by rfl)

end HappyHelper
